import Mathlib

/-!
Verification of the BankReceiptAPI transaction-resolution engine
(`src/getresult.js`) against its natural-language specification.

Text is modelled as `List Char`.  The JavaScript regular-expression
fragments used by the code (patterns of the shape `LABEL\s*(.*?)\s*ANCHOR`
with the `i` flag, over a pattern alphabet of literal characters and the
`\d` class) are given a direct backtracking semantics.  JavaScript `null`
is modelled by `Option`, JS falsiness of `null`/`""` by explicit tests,
and the JSON objects produced by the handlers by association lists so
that the exact key sets are visible in the model.
-/

set_option maxRecDepth 4000

namespace BankReceipt

/-- Text, modelled as a list of characters. -/
abbrev Str := List Char

/-- Membership of a code point in the JavaScript `\s` class
(`[\t\n\v\f\r    -     　﻿]`),
which is also the character set removed by `String.prototype.trim`. -/
def isJsWS (c : Char) : Bool :=
  (9 ≤ c.toNat && c.toNat ≤ 13) || c.toNat == 32 || c.toNat == 160 ||
  c.toNat == 0x1680 || (0x2000 ≤ c.toNat && c.toNat ≤ 0x200A) ||
  c.toNat == 0x2028 || c.toNat == 0x2029 || c.toNat == 0x202F ||
  c.toNat == 0x205F || c.toNat == 0x3000 || c.toNat == 0xFEFF

/-- A character the JavaScript `.` metacharacter (without the `s` flag)
matches: anything except the four line terminators. -/
def dotOk (c : Char) : Bool :=
  !(c.toNat == 10 || c.toNat == 13 || c.toNat == 0x2028 || c.toNat == 0x2029)

/-- ASCII letter test (by code point). -/
def isAsciiLetter (c : Char) : Bool :=
  (65 ≤ c.toNat && c.toNat ≤ 90) || (97 ≤ c.toNat && c.toNat ≤ 122)

/-- The JS `\d` class: exactly the ASCII digits. -/
def jsDigit (c : Char) : Bool :=
  48 ≤ c.toNat && c.toNat ≤ 57

/-- Case-insensitive character comparison as performed by a JS regex with
the `i` flag and without the `u` flag: ASCII letters are identified with
their other-cased form; canonicalisation never maps a non-ASCII character
to an ASCII one. All pattern characters in this program are ASCII. -/
def ciEq (p c : Char) : Bool :=
  p.toNat == c.toNat ||
  (65 ≤ p.toNat && p.toNat ≤ 90 && c.toNat == p.toNat + 32) ||
  (97 ≤ p.toNat && p.toNat ≤ 122 && p.toNat == c.toNat + 32)

/-- JS `String.prototype.trim`: drop `isJsWS` characters from both ends. -/
def jsTrim (l : Str) : Str :=
  ((l.dropWhile isJsWS).reverse.dropWhile isJsWS).reverse

/-- First `.replace` on line 50 of `getresult.js`: the global regex
`/\r?\n/g` replaced by a single space (left-to-right, non-overlapping):
a LF, optionally preceded by a CR, becomes one space; a CR not followed
by a LF does not match the regex and is kept. -/
def replaceNewlines : Str → Str
  | [] => []
  | [c] => if c = '\n' then [' '] else [c]
  | c :: d :: rest =>
    if c = '\n' then ' ' :: replaceNewlines (d :: rest)
    else if c = '\r' ∧ d = '\n' then ' ' :: replaceNewlines rest
    else c :: replaceNewlines (d :: rest)

theorem dropWhile_length_le (p : Char → Bool) (l : Str) :
    (List.dropWhile p l).length ≤ l.length := by
  induction l with
  | nil => simp [List.dropWhile]
  | cons c t ih =>
    by_cases h : p c
    · rw [List.dropWhile_cons_of_pos h]
      exact Nat.le_trans ih (Nat.le_succ _)
    · rw [List.dropWhile_cons_of_neg h]

/-- Worker for the second `.replace` on line 50 (the global regex
`/\s\s+/g` replaced by a single space): each maximal run of two or more
whitespace characters becomes one space.  The first argument is
recursion fuel; any fuel of at least `l.length - 1` computes the
replacement (each step consumes at least one character). -/
def collapseGo : Nat → Str → Str
  | _, [] => []
  | _, [c] => [c]
  | 0, l => l
  | n + 1, c :: d :: rest =>
    if isJsWS c && isJsWS d then ' ' :: collapseGo n (rest.dropWhile isJsWS)
    else c :: collapseGo n (d :: rest)

/-- Second `.replace` on line 50: the global regex `/\s\s+/g` replaced by
a single space. -/
def collapseWS (l : Str) : Str := collapseGo l.length l

/-- The whole whitespace-normalisation step of `parseFT` (line 50):
`pdfData.text.replace(/\r?\n/g, ' ').replace(/\s\s+/g, ' ')`. -/
def normalizeText (l : Str) : Str := collapseWS (replaceNewlines l)

/-! ### The anchor-pair regex engine used by `extract` inside `parseFT`

`extract(label, after)` builds `new RegExp(label + "\\s*(.*?)\\s*" + after, 'i')`
and takes the first match's first capture group.  Every `label`/`after`
regex fragment in the program denotes a fixed-length sequence of literal
characters and `\d` classes, so a pattern is a list of such items. -/

/-- One fixed-width item of a label/anchor regex fragment. -/
inductive PItem where
  | lit (c : Char)
  | digitC
  deriving DecidableEq, Repr

/-- A label or anchor pattern. -/
abbrev Pat := List PItem

/-- The pattern denoted by a literal string (each character matched
case-insensitively). -/
def lits (s : String) : Pat := s.toList.map PItem.lit

/-- Deterministic match of a fixed-width pattern at the head of the text;
returns the remaining text on success. -/
def matchSimple : Pat → Str → Option Str
  | [], t => some t
  | _ :: _, [] => none
  | PItem.lit p :: ps, c :: t => if ciEq p c then matchSimple ps t else none
  | PItem.digitC :: ps, c :: t => if jsDigit c then matchSimple ps t else none

/-- Does `\s*B` match at the head of `t` (for some number of leading
whitespace characters)?  This is what the backtracking engine checks at
each candidate end of the lazy capture group. -/
def wsThen (B : Pat) : Str → Bool
  | [] => (matchSimple B []).isSome
  | c :: t' => (matchSimple B (c :: t')).isSome || (isJsWS c && wsThen B t')

/-- The lazy group `(.*?)` grows from the empty string; at each size the
engine first tries to finish with `\s*B`.  A character that `.` cannot
match stops the growth.  Returns the captured group on success. -/
def tryGroup (B : Pat) : Str → Str → Option Str
  | [], acc => if wsThen B [] then some acc.reverse else none
  | c :: t', acc =>
    if wsThen B (c :: t') then some acc.reverse
    else if dotOk c then tryGroup B t' (c :: acc) else none

/-- Length of the maximal whitespace run at the head of the text: the
candidates for the greedy `\s*` after the label. -/
def wsRunLen : Str → Nat
  | [] => 0
  | c :: t => if isJsWS c then wsRunLen t + 1 else 0

/-- Greedy backtracking for the `\s*` after the label: try consuming
`n, n-1, …, 0` whitespace characters, first completion wins. -/
def q1Loop (B : Pat) (rest : Str) : Nat → Option Str
  | 0 => tryGroup B rest []
  | n + 1 =>
    match tryGroup B (rest.drop (n + 1)) [] with
    | some g => some g
    | none => q1Loop B rest n

/-- Matching of `\s*(.*?)\s*B` at the head of `rest` (the text left after
the label matched), in JS backtracking order; returns the capture. -/
def matchTailQ1 (B : Pat) (rest : Str) : Option Str :=
  q1Loop B rest (wsRunLen rest)

/-- Leftmost-first search of `A\s*(.*?)\s*B` over the text: try the whole
pattern at each position, earliest success wins (JS `String.match` with a
non-global regex). -/
def extractCore (A B : Pat) : Str → Option Str
  | [] =>
    (match matchSimple A [] with
     | some rest => matchTailQ1 B rest
     | none => none)
  | c :: t' =>
    (match matchSimple A (c :: t') with
     | some rest =>
       (match matchTailQ1 B rest with
        | some g => some g
        | none => extractCore A B t')
     | none => extractCore A B t')

/-- `extract(label, after)` from `parseFT` (lines 52–56):
`match ? match[1].trim() : null`. -/
def extract (text : Str) (label after : Pat) : Option Str :=
  (extractCore label after text).map jsTrim

/-! ### The CBE record assembly (`parseFT`, lines 58–81) -/

/-- The regex fragment `Account 1\*\*\*\*\d{4}` used for the receiver
account. -/
def maskedAccountPat : Pat :=
  lits "Account 1****" ++ [PItem.digitC, PItem.digitC, PItem.digitC, PItem.digitC]

/-- JS `x || fallback` where `x` is a string-or-null: `null` and the empty
string are falsy. -/
def jsOrOpt (x : Option Str) (d : Str) : Str :=
  match x with
  | none => d
  | some s => if s = [] then d else s

/-- JS `x ? x + " ETB" : "Unknown"` for a string-or-null `x`. -/
def etbSuffix (x : Option Str) : Str :=
  match x with
  | none => "Unknown".toList
  | some s => if s = [] then "Unknown".toList else s ++ " ETB".toList

/-- The two source networks. -/
inductive SourceNetwork where
  | CBE
  | Telebirr
  deriving DecidableEq, Repr

/-- The JSON object a parser returns: `source`, `transactionId`, `link`,
and the `data` map, modelled as an association list so that the exact key
set and order of the object literal is part of the model.  A value of
`none` is JS `null`. -/
structure CanonicalRecord where
  source : SourceNetwork
  transactionId : Str
  link : Str
  data : List (String × Option Str)
  deriving DecidableEq, Repr

/-- The `data` object literal built by `parseFT` (lines 67–81) from the
normalised text of the PDF. -/
def parseFTData (text : Str) : List (String × Option Str) :=
  let payer := extract text (lits "Payer") (lits "Account")
  let payerAccount := extract text (lits "Account") (lits "Receiver")
  let receiver := extract text (lits "Receiver") (lits "Account")
  let receiverAccount :=
    jsOrOpt (extract text maskedAccountPat (lits "Payment Date & Time"))
      "1000009338067".toList
  let dateTime := extract text (lits "Payment Date & Time") (lits "Reference No")
  let reference := extract text (lits "Reference No. (VAT Invoice No)") (lits "Reason")
  let reason := extract text (lits "Reason / Type of service") (lits "Transferred Amount")
  let totalAmount :=
    extract text (lits "Total amount debited from customers account") (lits "Amount in Word")
  [("payer", payer),
   ("payerAccount", some (jsOrOpt payerAccount "Unknown".toList)),
   ("receiver", receiver),
   ("receiverAccount", some receiverAccount),
   ("paymentDateTime", dateTime),
   ("referenceNo", reference),
   ("reason", reason),
   ("totalAmount", some (etbSuffix totalAmount))]

/-- The record returned by `parseFT` once the PDF has been fetched,
decoded and its text normalised (the fetch and `pdf-parse` steps are the
external collaborators; `text` is `pdfData.text` before normalisation). -/
def parseFTRecord (pdfText tid link : Str) : CanonicalRecord :=
  { source := SourceNetwork.CBE
    transactionId := tid
    link := link
    data := parseFTData (normalizeText pdfText) }

/-! ### The Telebirr HTML extractor (`parseTelebirr`, lines 85–122)

The cheerio document is modelled at the table level: a document is a list
of rows (`tr` siblings in document order), a row a list of cells (`td`
siblings); the one CSS class the code consults (`receipttableTd2`) is a
marker flag on the cell. -/

/-- A `td` cell: its text content, and whether it carries the
`receipttableTd2` class. -/
structure Cell where
  text : Str
  marker : Bool
  deriving DecidableEq, Repr

/-- A `tr` row. -/
structure Row where
  cells : List Cell
  deriving DecidableEq, Repr

/-- A parsed document (what `cheerio.load` yields, restricted to the
structure the code traverses). -/
structure TDoc where
  rows : List Row
  deriving DecidableEq, Repr

/-- JS `haystack.includes(needle)` / cheerio `:contains(needle)`:
case-sensitive substring test. -/
def hasPrefixStr : Str → Str → Bool
  | [], _ => true
  | _ :: _, [] => false
  | n :: ns, h :: hs => n == h && hasPrefixStr ns hs

def containsSubstr (s sub : Str) : Bool :=
  if hasPrefixStr sub s then true
  else match s with
    | [] => false
    | _ :: s' => containsSubstr s' sub

/-- `$('td:contains(label)').next().text()` on one row: every cell whose
text contains the label contributes the text of its next sibling cell (a
cell with no next sibling contributes nothing). -/
def rowNexts (label : Str) : List Cell → Str
  | c :: d :: rest =>
    (if containsSubstr c.text label then d.text else []) ++ rowNexts label (d :: rest)
  | _ => []

/-- `$('td:contains(label)').next().text()` over the whole document:
concatenation in document order. -/
def nextTexts (doc : TDoc) (label : Str) : Str :=
  (doc.rows.map (fun r => rowNexts label r.cells)).flatten

/-- Position of `$('td.receipttableTd2').first()`: row and cell index of
the first marker cell in document order. -/
def findCellIdx : List Cell → Nat → Option Nat
  | [], _ => none
  | c :: cs, i => if c.marker then some i else findCellIdx cs (i + 1)

def findMarker : List Row → Nat → Option (Nat × Nat)
  | [], _ => none
  | r :: rs, i =>
    match findCellIdx r.cells 0 with
    | some j => some (i, j)
    | none => findMarker rs (i + 1)

/-- The two positionally-read fields (lines 101–104): `receiptNumber` is
the text of the first cell of the row after the marker row;
`paymentDate` is the text of the second cell of the row after the row of
the marker's next sibling (the same row), provided that sibling exists.
An empty cheerio selection yields the empty string. -/
def positionalFields (rows : List Row) : Str × Str :=
  match findMarker rows 0 with
  | none => ([], [])
  | some (ri, ci) =>
    let nextRowCells :=
      match rows.get? (ri + 1) with
      | some r => r.cells
      | none => []
    let receiptNumber :=
      jsTrim (match nextRowCells.get? 0 with
              | some c => c.text
              | none => [])
    let paymentDate :=
      match (rows.get? ri).bind (fun r => r.cells.get? (ci + 1)) with
      | none => []
      | some _ =>
        jsTrim (match nextRowCells.get? 1 with
                | some c => c.text
                | none => [])
    (receiptNumber, paymentDate)

/-- The six bilingual labels used by the `:contains` selectors. -/
def lblPayerName : Str := "የከፋይ ስም/Payer Name".toList
def lblPayerTelebirrNo : Str := "የከፋይ ቴሌብር ቁ./Payer telebirr no.".toList
def lblCreditedParty : Str := "የገንዘብ ተቀባይ ስም/Credited Party name".toList
def lblPaymentReason : Str := "የክፍያ ምክንያት/Payment Reason".toList
def lblBankAccount : Str := "የባንክ አካውንት ቁጥር/Bank account number".toList
def lblTotalPaid : Str := "ጠቅላላ የተከፈለ/Total Paid Amount".toList

/-- The `data` object literal built by `parseTelebirr` (lines 95–121)
from the loaded document. -/
def parseTelebirrData (doc : TDoc) : List (String × Option Str) :=
  let payerName := jsTrim (nextTexts doc lblPayerName)
  let payerTelebirrNumber := jsTrim (nextTexts doc lblPayerTelebirrNo)
  let creditedPartyName := jsTrim (nextTexts doc lblCreditedParty)
  let paymentType := jsTrim (nextTexts doc lblPaymentReason)
  let accountNumber := jsTrim (nextTexts doc lblBankAccount)
  let pos := positionalFields doc.rows
  let totalAmountPaid := jsTrim (nextTexts doc lblTotalPaid)
  [("paymentType", some paymentType),
   ("payerName", some payerName),
   ("payerTelebirrNumber", some payerTelebirrNumber),
   ("creditedPartyName", some creditedPartyName),
   ("bankAccountNumber",
     some (if accountNumber = [] then "Not available".toList else accountNumber)),
   ("receiptNumber", some pos.1),
   ("paymentDate", some pos.2),
   ("totalAmountPaid", some totalAmountPaid)]

/-- The sentinel phrase checked on line 89. -/
def invalidSentinel : Str := "This request is not correct".toList

/-- The message of the error thrown on line 90. -/
def invalidIdMsg : Str := "Invalid Telebirr transaction ID".toList

/-- `parseTelebirr` after a successful fetch: `html` is the fetched text
and `doc` the result of `cheerio.load html` (the HTML parser is an
external collaborator).  The sentinel check happens on the raw text
before any DOM work; an error is modelled as `Except.error message`. -/
def parseTelebirr (html : Str) (doc : TDoc) (tid link : Str) :
    Except Str CanonicalRecord :=
  if containsSubstr html invalidSentinel then Except.error invalidIdMsg
  else
    Except.ok
      { source := SourceNetwork.Telebirr
        transactionId := tid
        link := link
        data := parseTelebirrData doc }

/-! ### Router and request boundary (lines 125–153) -/

/-- `transactionId.startsWith('FT')` together with the two URL templates
(lines 134–139): selects the source network and builds the fetch URL. -/
def route (tid : Str) : SourceNetwork × Str :=
  if hasPrefixStr "FT".toList tid then
    (SourceNetwork.CBE,
      "https://apps.cbe.com.et:100/?id=".toList ++ tid ++ "W09338067".toList)
  else
    (SourceNetwork.Telebirr,
      "https://transactioninfo.ethiotelecom.et/receipt/".toList ++ tid)

/-- A row appended to the `logs` table by `logToDatabase` (lines 36–41,
minus the timestamp, which is wall-clock state). -/
structure AuditEntry where
  transactionId : Str
  link : Str
  response : CanonicalRecord
  ip : Str
  userAgent : Str
  deriving DecidableEq, Repr

/-- The HTTP response body: either the record serialised by `res.json`
or the failure object of lines 147–151. -/
inductive ResponseBody where
  | record (r : CanonicalRecord)
  | failure (error : String) (detail : Str) (transactionId : Str)
  deriving DecidableEq, Repr

structure HttpResponse where
  status : Nat
  body : ResponseBody
  deriving DecidableEq, Repr

/-- The `/getresult/:transactionId` handler (lines 125–153).  `runParse`
abstracts the awaited `parseFT`/`parseTelebirr` call on the routed
network and link — every fetch, decode or sentinel failure surfaces as
`Except.error message` and lands in the `catch` block.  Returns the HTTP
response together with the list of audit rows appended. -/
def handleGetResult (tid ip userAgent : Str)
    (runParse : SourceNetwork → Str → Except Str CanonicalRecord) :
    HttpResponse × List AuditEntry :=
  let net := (route tid).1
  let link := (route tid).2
  match runParse net link with
  | Except.ok result =>
    ({ status := 200, body := ResponseBody.record result },
     [{ transactionId := tid, link := link, response := result,
        ip := ip, userAgent := userAgent }])
  | Except.error msg =>
    ({ status := 500,
       body := ResponseBody.failure "Failed to process transaction" msg tid },
     [])

/-! ### Generic lemmas about the regex engine -/

theorem matchSimple_extend (A : Pat) :
    ∀ (s r t : Str), matchSimple A s = some r → matchSimple A (s ++ t) = some (r ++ t) := by
  induction A with
  | nil =>
    intro s r t h
    simp [matchSimple] at h
    subst h
    simp [matchSimple]
  | cons item ps ih =>
    intro s r t h
    cases s with
    | nil => simp [matchSimple] at h
    | cons c s' =>
      cases item with
      | lit p =>
        by_cases hc : ciEq p c = true
        · simp [matchSimple, hc] at h ⊢
          exact ih s' r t h
        · simp [matchSimple, hc] at h
      | digitC =>
        by_cases hc : jsDigit c = true
        · simp [matchSimple, hc] at h ⊢
          exact ih s' r t h
        · simp [matchSimple, hc] at h

/-- `matchPrefixFail A s = true` certifies that matching `A` at the head
of `s` fails regardless of what follows `s`. -/
def matchPrefixFail : Pat → Str → Bool
  | [], _ => false
  | _ :: _, [] => false
  | PItem.lit p :: ps, c :: t => !ciEq p c || matchPrefixFail ps t
  | PItem.digitC :: ps, c :: t => !jsDigit c || matchPrefixFail ps t

theorem matchPrefixFail_sound (A : Pat) :
    ∀ (s t : Str), matchPrefixFail A s = true → matchSimple A (s ++ t) = none := by
  induction A with
  | nil => intro s t h; simp [matchPrefixFail] at h
  | cons item ps ih =>
    intro s t h
    cases s with
    | nil => simp [matchPrefixFail] at h
    | cons c s' =>
      cases item with
      | lit p =>
        cases hc : ciEq p c with
        | false => simp [matchSimple, hc]
        | true =>
          simp [matchPrefixFail, hc] at h
          simp [matchSimple, hc]
          exact ih s' t h
      | digitC =>
        cases hc : jsDigit c with
        | false => simp [matchSimple, hc]
        | true =>
          simp [matchPrefixFail, hc] at h
          simp [matchSimple, hc]
          exact ih s' t h

/-- `scanFailAll A seg = true` certifies that the whole-pattern attempt
dies strictly inside `seg` at every start position of `seg`. -/
def scanFailAll (A : Pat) : Str → Bool
  | [] => true
  | c :: t => matchPrefixFail A (c :: t) && scanFailAll A t

theorem extractCore_cons_none (A B : Pat) (c : Char) (t : Str)
    (hm : matchSimple A (c :: t) = none) :
    extractCore A B (c :: t) = extractCore A B t := by
  simp [extractCore, hm]

theorem extractCore_found (A B : Pat) (t rest g : Str)
    (hm : matchSimple A t = some rest) (hg : matchTailQ1 B rest = some g) :
    extractCore A B t = some g := by
  cases t with
  | nil => simp [extractCore, hm, hg]
  | cons c t' => simp [extractCore, hm, hg]

theorem scanFail_skip (A B : Pat) :
    ∀ (seg t : Str), scanFailAll A seg = true →
      extractCore A B (seg ++ t) = extractCore A B t := by
  intro seg
  induction seg with
  | nil => intro t _; rfl
  | cons c seg' ih =>
    intro t h
    simp [scanFailAll] at h
    have hm := matchPrefixFail_sound A (c :: seg') t h.1
    rw [List.cons_append] at hm ⊢
    rw [extractCore_cons_none A B c (seg' ++ t) hm]
    exact ih t h.2

/-! ### Safe characters: the well-formedness condition on field values -/

/-- A "safe" value character: not whitespace, not an ASCII letter,
matched by `.`, and not an asterisk.  No label or anchor pattern of the
program can begin at such a character, and such characters are inert for
`\s*` and for `trim`. -/
def safeChar (c : Char) : Bool :=
  !isJsWS c && !isAsciiLetter c && dotOk c && !(c.toNat == 42)

theorem safe_not_ws (c : Char) (h : safeChar c = true) : isJsWS c = false := by
  simp only [safeChar, Bool.and_eq_true, Bool.not_eq_true'] at h
  exact h.1.1.1

theorem safe_not_letter (c : Char) (h : safeChar c = true) : isAsciiLetter c = false := by
  simp only [safeChar, Bool.and_eq_true, Bool.not_eq_true'] at h
  exact h.1.1.2

theorem safe_dotOk (c : Char) (h : safeChar c = true) : dotOk c = true := by
  simp only [safeChar, Bool.and_eq_true, Bool.not_eq_true'] at h
  exact h.1.2

theorem safe_not_star (c : Char) (h : safeChar c = true) : (c.toNat == 42) = false := by
  simp only [safeChar, Bool.and_eq_true, Bool.not_eq_true'] at h
  exact h.2

theorem digit_safe (c : Char) (h : jsDigit c = true) : safeChar c = true := by
  simp only [jsDigit, Bool.and_eq_true, decide_eq_true_eq] at h
  simp only [safeChar, isJsWS, isAsciiLetter, dotOk, Bool.and_eq_true, Bool.not_eq_true',
    Bool.or_eq_false_iff, Bool.and_eq_false_iff, decide_eq_true_eq, decide_eq_false_iff_not,
    beq_eq_false_iff_ne, ne_eq, Bool.not_eq_false']
  omega

theorem ciEq_letter_safe (p c : Char) (hp : isAsciiLetter p = true) (hc : safeChar c = true) :
    ciEq p c = false := by
  have h1 := safe_not_letter c hc
  simp only [isAsciiLetter, Bool.or_eq_true, Bool.and_eq_true, decide_eq_true_eq] at hp
  simp only [isAsciiLetter, Bool.or_eq_false_iff, Bool.and_eq_false_iff,
    decide_eq_false_iff_not] at h1
  simp only [ciEq, Bool.or_eq_false_iff, Bool.and_eq_false_iff, decide_eq_false_iff_not,
    beq_eq_false_iff_ne, ne_eq]
  omega

theorem ciEq_star_safe (c : Char) (hc : safeChar c = true) : ciEq '*' c = false := by
  have h1 := safe_not_star c hc
  have h42 : ('*' : Char).toNat = 42 := by decide
  simp only [beq_eq_false_iff_ne, ne_eq] at h1
  simp only [ciEq, h42, Bool.or_eq_false_iff, Bool.and_eq_false_iff, decide_eq_false_iff_not,
    beq_eq_false_iff_ne, ne_eq]
  omega

/-- The head item of a pattern, when it is a literal ASCII letter.  All
eight label patterns and all anchor patterns of `parseFT` qualify. -/
def headIsLetter : Pat → Bool
  | PItem.lit p :: _ => isAsciiLetter p
  | _ => false

theorem matchSimple_letterhead_safe (A : Pat) (hh : headIsLetter A = true)
    (c : Char) (t : Str) (hc : safeChar c = true) :
    matchSimple A (c :: t) = none := by
  cases A with
  | nil => simp [headIsLetter] at hh
  | cons item ps =>
    cases item with
    | lit p =>
      simp only [headIsLetter] at hh
      simp [matchSimple, ciEq_letter_safe p c hh hc]
    | digitC => simp [headIsLetter] at hh

theorem extractCore_skip_safe (A B : Pat) (hh : headIsLetter A = true) :
    ∀ (v t : Str), (∀ c ∈ v, safeChar c = true) →
      extractCore A B (v ++ t) = extractCore A B t := by
  intro v
  induction v with
  | nil => intro t _; rfl
  | cons c v' ih =>
    intro t hv
    have hc : safeChar c = true := hv c (List.mem_cons_self c v')
    have hm := matchSimple_letterhead_safe A hh c (v' ++ t) hc
    rw [List.cons_append, extractCore_cons_none A B c (v' ++ t) hm]
    exact ih t (fun d hd => hv d (List.mem_cons_of_mem _ hd))

theorem wsThen_of_match (B : Pat) (t : Str) (h : (matchSimple B t).isSome = true) :
    wsThen B t = true := by
  cases t <;> simp [wsThen, h]

theorem wsThen_ws_cons (B : Pat) (c : Char) (t : Str) (hc : isJsWS c = true)
    (h : wsThen B t = true) : wsThen B (c :: t) = true := by
  simp [wsThen, hc, h]

theorem tryGroup_of_wsThen (B : Pat) (t acc : Str) (h : wsThen B t = true) :
    tryGroup B t acc = some acc.reverse := by
  cases t <;> simp [tryGroup, h]

theorem wsThen_safe_head (B : Pat) (hh : headIsLetter B = true) (c : Char) (t : Str)
    (hc : safeChar c = true) : wsThen B (c :: t) = false := by
  have hm := matchSimple_letterhead_safe B hh c t hc
  simp [wsThen, hm, safe_not_ws c hc]

theorem tryGroup_skip_safe (B : Pat) (hh : headIsLetter B = true) :
    ∀ (v t acc : Str), (∀ c ∈ v, safeChar c = true) →
      tryGroup B (v ++ t) acc = tryGroup B t (v.reverse ++ acc) := by
  intro v
  induction v with
  | nil => intro t acc _; simp
  | cons c v' ih =>
    intro t acc hv
    have hc : safeChar c = true := hv c (List.mem_cons_self c v')
    have hw := wsThen_safe_head B hh c (v' ++ t) hc
    rw [List.cons_append]
    rw [show tryGroup B (c :: (v' ++ t)) acc = tryGroup B (v' ++ t) (c :: acc) from by
      simp [tryGroup, hw, safe_dotOk c hc]]
    rw [ih t (c :: acc) (fun d hd => hv d (List.mem_cons_of_mem _ hd))]
    simp

theorem wsRunLen_cons_ws (c : Char) (t : Str) (h : isJsWS c = true) :
    wsRunLen (c :: t) = wsRunLen t + 1 := by
  simp [wsRunLen, h]

theorem wsRunLen_cons_not (c : Char) (t : Str) (h : isJsWS c = false) :
    wsRunLen (c :: t) = 0 := by
  simp [wsRunLen, h]

/-- After the label, the text is a single space, then a safe nonempty
value, then text at whose head `\s*B` matches: the capture is exactly the
value. -/
theorem matchTailQ1_value (B : Pat) (hh : headIsLetter B = true)
    (v t : Str) (hv : ∀ c ∈ v, safeChar c = true) (hne : v ≠ [])
    (hws : wsThen B t = true) :
    matchTailQ1 B (' ' :: (v ++ t)) = some v := by
  obtain ⟨c, v', rfl⟩ := List.exists_cons_of_ne_nil hne
  have hc : safeChar c = true := hv c (List.mem_cons_self c v')
  have h1 : wsRunLen (' ' :: ((c :: v') ++ t)) = 1 := by
    rw [List.cons_append, wsRunLen_cons_ws _ _ (by decide),
      wsRunLen_cons_not c (v' ++ t) (safe_not_ws c hc)]
  rw [matchTailQ1, h1]
  have hg : tryGroup B ((c :: v') ++ t) [] = some (c :: v') := by
    rw [tryGroup_skip_safe B hh (c :: v') t [] hv, tryGroup_of_wsThen B t _ hws]
    simp
  rw [List.cons_append] at hg
  simp [q1Loop, hg]

/-- After the label, the text is a single space and then text at whose
head `B` itself matches: the capture is empty. -/
theorem matchTailQ1_empty (B : Pat) (t : Str) (h0 : wsRunLen t = 0)
    (hws : wsThen B t = true) :
    matchTailQ1 B (' ' :: t) = some [] := by
  have h1 : wsRunLen (' ' :: t) = 1 := by
    rw [wsRunLen_cons_ws _ _ (by decide), h0]
  rw [matchTailQ1, h1]
  have hg : tryGroup B t [] = some [] := by
    rw [tryGroup_of_wsThen B t [] hws]; rfl
  simp [q1Loop, hg]

theorem dropWhile_all_false (p : Char → Bool) (l : Str) (h : ∀ c ∈ l, p c = false) :
    List.dropWhile p l = l := by
  cases l with
  | nil => rfl
  | cons c t =>
    exact List.dropWhile_cons_of_neg (by simp [h c (List.mem_cons_self c t)])

theorem jsTrim_safe (v : Str) (hv : ∀ c ∈ v, safeChar c = true) : jsTrim v = v := by
  unfold jsTrim
  rw [dropWhile_all_false _ v (fun c hc => safe_not_ws c (hv c hc)),
    dropWhile_all_false _ v.reverse (fun c hc => safe_not_ws c (hv c (List.mem_reverse.mp hc)))]
  exact List.reverse_reverse v

theorem matchSimple_append (P1 P2 : Pat) :
    ∀ t, matchSimple (P1 ++ P2) t = (matchSimple P1 t).bind (matchSimple P2) := by
  induction P1 with
  | nil => intro t; simp [matchSimple]
  | cons item ps ih =>
    intro t
    cases t with
    | nil => simp [matchSimple]
    | cons c t' =>
      cases item with
      | lit p => by_cases hc : ciEq p c = true <;> simp [matchSimple, hc, ih]
      | digitC => by_cases hc : jsDigit c = true <;> simp [matchSimple, hc, ih]

/-- Does the pattern match anywhere in the text?  `hasPat A t = false`
formalises "the label is absent from the document". -/
def hasPat (A : Pat) : Str → Bool
  | [] => (matchSimple A []).isSome
  | c :: t' => (matchSimple A (c :: t')).isSome || hasPat A t'

theorem extractCore_none_of_no_match (A B : Pat) :
    ∀ t, hasPat A t = false → extractCore A B t = none := by
  intro t
  induction t with
  | nil =>
    intro h
    have hm : matchSimple A [] = none := by
      cases hm : matchSimple A [] with
      | none => rfl
      | some r => simp [hasPat, hm] at h
    simp [extractCore, hm]
  | cons c t' ih =>
    intro h
    simp only [hasPat, Bool.or_eq_false_iff] at h
    have hm : matchSimple A (c :: t') = none := by
      cases hm : matchSimple A (c :: t') with
      | none => rfl
      | some r => rw [hm] at h; simp at h
    rw [extractCore_cons_none A B c t' hm]
    exact ih h.2

/-! ### Lemmas about the whitespace-normalisation step -/

/-- No two adjacent whitespace characters anywhere in the text. -/
def noConsecWS : Str → Bool
  | c :: d :: rest => !(isJsWS c && isJsWS d) && noConsecWS (d :: rest)
  | _ => true

theorem collapseGo_cons_nonws (n : Nat) (c : Char) (l : Str) (hc : isJsWS c = false) :
    collapseGo (n + 1) (c :: l) = c :: collapseGo n l := by
  cases l with
  | nil => simp [collapseGo]
  | cons d t => simp [collapseGo, hc]

theorem dropWhile_head_false (p : Char → Bool) :
    ∀ (l : Str) (e : Char) (r' : Str), List.dropWhile p l = e :: r' → p e = false := by
  intro l
  induction l with
  | nil => intro e r' h; simp [List.dropWhile] at h
  | cons c t ih =>
    intro e r' h
    cases hpc : p c with
    | true =>
      rw [List.dropWhile_cons_of_pos hpc] at h
      exact ih e r' h
    | false =>
      rw [List.dropWhile_cons_of_neg (by simp [hpc])] at h
      injection h with h1 h2
      subst h1
      exact hpc

theorem noConsec_cons_nonws_left (c : Char) (X : Str) (hc : isJsWS c = false)
    (hX : noConsecWS X = true) : noConsecWS (c :: X) = true := by
  cases X with
  | nil => rfl
  | cons e Y => simp [noConsecWS, hc] at hX ⊢; exact hX

/-- Prepending any character to `collapseGo n (e :: r')` with `e`
non-whitespace cannot create an adjacent whitespace pair at the front. -/
theorem noConsec_cons_go (n : Nat) (a e : Char) (r' : Str) (he : isJsWS e = false)
    (h : noConsecWS (collapseGo n (e :: r')) = true) :
    noConsecWS (a :: collapseGo n (e :: r')) = true := by
  obtain ⟨X, hX⟩ : ∃ X, collapseGo n (e :: r') = e :: X := by
    cases n with
    | zero =>
      cases r' with
      | nil => exact ⟨[], by simp [collapseGo]⟩
      | cons b bs => exact ⟨b :: bs, by simp [collapseGo]⟩
    | succ m => exact ⟨collapseGo m r', collapseGo_cons_nonws m e r' he⟩
  rw [hX] at h ⊢
  simp only [noConsecWS, he, Bool.and_false, Bool.not_false, Bool.true_and]
  exact h

theorem noConsec_collapseGo :
    ∀ (n : Nat) (l : Str), l.length ≤ n + 1 → noConsecWS (collapseGo n l) = true := by
  intro n
  induction n with
  | zero =>
    intro l hl
    match l, hl with
    | [], _ => simp [collapseGo, noConsecWS]
    | [c], _ => simp [collapseGo, noConsecWS]
  | succ n ih =>
    intro l hl
    match l with
    | [] => simp [collapseGo, noConsecWS]
    | [c] => simp [collapseGo, noConsecWS]
    | c :: d :: rest =>
      simp only [List.length_cons] at hl
      cases hcd : (isJsWS c && isJsWS d) with
      | true =>
        rw [show collapseGo (n + 1) (c :: d :: rest) =
              ' ' :: collapseGo n (rest.dropWhile isJsWS) from by simp [collapseGo, hcd]]
        cases he : rest.dropWhile isJsWS with
        | nil =>
          rw [show collapseGo n ([] : Str) = [] from by cases n <;> simp [collapseGo]]
          simp [noConsecWS]
        | cons e r' =>
          have hef : isJsWS e = false := dropWhile_head_false isJsWS rest e r' he
          have hlen : (e :: r').length ≤ n + 1 := by
            have h2 := dropWhile_length_le isJsWS rest
            rw [he] at h2
            simp only [List.length_cons] at h2 ⊢
            omega
          exact noConsec_cons_go n ' ' e r' hef (ih _ hlen)
      | false =>
        rw [show collapseGo (n + 1) (c :: d :: rest) =
              c :: collapseGo n (d :: rest) from by simp [collapseGo, hcd]]
        have hdr : noConsecWS (collapseGo n (d :: rest)) = true := by
          apply ih
          simp only [List.length_cons]
          omega
        cases hc : isJsWS c with
        | false => exact noConsec_cons_nonws_left c _ hc hdr
        | true =>
          have hd : isJsWS d = false := by
            cases hdd : isJsWS d with
            | false => rfl
            | true => rw [hc, hdd] at hcd; simp at hcd
          exact noConsec_cons_go n c d rest hd hdr

theorem noConsec_collapse (l : Str) : noConsecWS (collapseWS l) = true := by
  unfold collapseWS
  cases l with
  | nil => simp [collapseGo, noConsecWS]
  | cons c t =>
    apply noConsec_collapseGo
    simp

theorem no_newline_replace : ∀ l : Str, '\n' ∉ replaceNewlines l
  | [] => by simp [replaceNewlines]
  | [c] => by
    by_cases h : c = '\n'
    · simp [replaceNewlines, h]
    · simp [replaceNewlines, h]
      exact fun hc => h hc.symm
  | c :: d :: rest => by
    by_cases h1 : c = '\n'
    · rw [show replaceNewlines (c :: d :: rest) = ' ' :: replaceNewlines (d :: rest) from by
        simp [replaceNewlines, h1]]
      intro h
      rcases List.mem_cons.mp h with hx | hx
      · exact absurd hx (by decide)
      · exact no_newline_replace (d :: rest) hx
    · by_cases h2 : c = '\r' ∧ d = '\n'
      · rw [show replaceNewlines (c :: d :: rest) = ' ' :: replaceNewlines rest from by
          rw [replaceNewlines]; rw [if_neg h1, if_pos h2]]
        intro h
        rcases List.mem_cons.mp h with hx | hx
        · exact absurd hx (by decide)
        · exact no_newline_replace rest hx
      · rw [show replaceNewlines (c :: d :: rest) = c :: replaceNewlines (d :: rest) from by
          rw [replaceNewlines]; rw [if_neg h1, if_neg h2]]
        intro h
        rcases List.mem_cons.mp h with hx | hx
        · exact h1 hx.symm
        · exact no_newline_replace (d :: rest) hx

theorem mem_collapseGo (x : Char) :
    ∀ (n : Nat) (l : Str), x ∈ collapseGo n l → x ∈ l ∨ x = ' ' := by
  intro n
  induction n with
  | zero =>
    intro l hx
    match l with
    | [] => simp [collapseGo] at hx
    | [c] => simp [collapseGo] at hx; simp [hx]
    | c :: d :: rest => exact Or.inl hx
  | succ n ih =>
    intro l hx
    match l with
    | [] => simp [collapseGo] at hx
    | [c] => simp [collapseGo] at hx; simp [hx]
    | c :: d :: rest =>
      cases hcd : (isJsWS c && isJsWS d) with
      | true =>
        rw [show collapseGo (n + 1) (c :: d :: rest) =
              ' ' :: collapseGo n (rest.dropWhile isJsWS) from by simp [collapseGo, hcd]] at hx
        rcases List.mem_cons.mp hx with h | h
        · right; exact h
        · rcases ih _ h with h2 | h2
          · left
            have := (List.dropWhile_sublist (l := rest) isJsWS).subset h2
            simp [this]
          · right; exact h2
      | false =>
        rw [show collapseGo (n + 1) (c :: d :: rest) =
              c :: collapseGo n (d :: rest) from by simp [collapseGo, hcd]] at hx
        rcases List.mem_cons.mp hx with h | h
        · left; simp [h]
        · rcases ih _ h with h2 | h2
          · left
            rcases List.mem_cons.mp h2 with h3 | h3
            · simp [h3]
            · simp [h3]
          · right; exact h2

theorem mem_collapse (x : Char) (l : Str) (h : x ∈ collapseWS l) : x ∈ l ∨ x = ' ' :=
  mem_collapseGo x l.length l h

/-! ### Claim theorems: router and boundary -/

/-- C1: for every transaction identifier starting with "FT" the router
selects CBE and builds the CBE URL containing the identifier with the
fixed suffix token `W09338067` appended against the fixed CBE host; for
every other identifier it selects Telebirr and interpolates the
identifier into the fixed Telebirr path template. -/
theorem claim_C1 (tid : Str) :
    (hasPrefixStr "FT".toList tid = true →
      route tid = (SourceNetwork.CBE,
        "https://apps.cbe.com.et:100/?id=".toList ++ tid ++ "W09338067".toList) ∧
      ∃ pre post, (route tid).2 = pre ++ tid ++ post) ∧
    (hasPrefixStr "FT".toList tid = false →
      route tid = (SourceNetwork.Telebirr,
        "https://transactioninfo.ethiotelecom.et/receipt/".toList ++ tid)) := by
  constructor
  · intro h
    constructor
    · simp only [route, h]
      simp
    · exact ⟨"https://apps.cbe.com.et:100/?id=".toList, "W09338067".toList, by
        simp only [route, h]
        simp⟩
  · intro h
    simp only [route, h]
    simp

theorem claim_C1_witness :
    route "FT123".toList = (SourceNetwork.CBE,
      "https://apps.cbe.com.et:100/?id=FT123W09338067".toList) ∧
    route "9999".toList = (SourceNetwork.Telebirr,
      "https://transactioninfo.ethiotelecom.et/receipt/9999".toList) := by
  constructor
  · exact (((claim_C1 "FT123".toList).1 (by decide)).1).trans (by decide)
  · exact ((claim_C1 "9999".toList).2 (by decide)).trans (by decide)

/-- C10: the dispatch is total and case-sensitive: every identifier that
does not start with the exact uppercase "FT" — the empty string and
lowercase "ft…" included — routes to Telebirr, and the routing step is a
total function, so it raises nothing. -/
theorem claim_C10 :
    (∀ tid : Str, hasPrefixStr "FT".toList tid = false →
      route tid = (SourceNetwork.Telebirr,
        "https://transactioninfo.ethiotelecom.et/receipt/".toList ++ tid)) ∧
    (∀ rest : Str, route ('f' :: 't' :: rest) =
      (SourceNetwork.Telebirr,
        "https://transactioninfo.ethiotelecom.et/receipt/".toList ++ ('f' :: 't' :: rest))) ∧
    route [] = (SourceNetwork.Telebirr,
      "https://transactioninfo.ethiotelecom.et/receipt/".toList) := by
  refine ⟨fun tid h => by simp only [route, h]; simp, fun rest => ?_, ?_⟩
  · have h : hasPrefixStr "FT".toList ('f' :: 't' :: rest) = false := by
      simp +decide [hasPrefixStr]
    simp only [route, h]
    simp
  · simp [route, hasPrefixStr]

theorem claim_C10_witness :
    route "tb123".toList = (SourceNetwork.Telebirr,
      "https://transactioninfo.ethiotelecom.et/receipt/tb123".toList) ∧
    route "ft123".toList = (SourceNetwork.Telebirr,
      "https://transactioninfo.ethiotelecom.et/receipt/ft123".toList) := by
  constructor
  · exact (claim_C10.1 "tb123".toList (by decide)).trans (by decide)
  · exact (claim_C10.1 "ft123".toList (by decide)).trans (by decide)

/-- C2: the `data` map of every record produced by either extractor has
exactly the keys of its source's schema, in the order of the object
literals, regardless of the content of the fetched document. -/
theorem claim_C2 :
    (∀ pdfText tid link : Str, (parseFTRecord pdfText tid link).data.map Prod.fst =
      ["payer", "payerAccount", "receiver", "receiverAccount",
       "paymentDateTime", "referenceNo", "reason", "totalAmount"]) ∧
    (∀ doc : TDoc, (parseTelebirrData doc).map Prod.fst =
      ["paymentType", "payerName", "payerTelebirrNumber", "creditedPartyName",
       "bankAccountNumber", "receiptNumber", "paymentDate", "totalAmountPaid"]) :=
  ⟨fun _ _ _ => rfl, fun _ => rfl⟩

/-- C6: Telebirr HTML containing the sentinel phrase "This request is not
correct" makes the extractor fail with the invalid-identifier error and
produce no record, whatever the parsed document looks like. -/
theorem claim_C6 (html : Str) (doc : TDoc) (tid link : Str)
    (h : containsSubstr html invalidSentinel = true) :
    parseTelebirr html doc tid link = Except.error invalidIdMsg := by
  simp [parseTelebirr, h]

theorem claim_C6_witness :
    parseTelebirr "<div>This request is not correct</div>".toList ⟨[]⟩ [] [] =
      Except.error invalidIdMsg :=
  claim_C6 "<div>This request is not correct</div>".toList ⟨[]⟩ [] [] (by decide)

/-- C8: a failed lookup produces exactly the
`{error, detail, transactionId}` failure response and appends no audit
row; a successful lookup returns the record and appends exactly one audit
row — an audit append happens precisely when resolution succeeds. -/
theorem claim_C8 (tid ip userAgent : Str)
    (runParse : SourceNetwork → Str → Except Str CanonicalRecord) :
    (∀ msg, runParse (route tid).1 (route tid).2 = Except.error msg →
      handleGetResult tid ip userAgent runParse =
        ({ status := 500,
           body := ResponseBody.failure "Failed to process transaction" msg tid }, [])) ∧
    (∀ r, runParse (route tid).1 (route tid).2 = Except.ok r →
      handleGetResult tid ip userAgent runParse =
        ({ status := 200, body := ResponseBody.record r },
         [{ transactionId := tid, link := (route tid).2, response := r,
            ip := ip, userAgent := userAgent }])) ∧
    ((handleGetResult tid ip userAgent runParse).2 ≠ [] ↔
      ∃ r, runParse (route tid).1 (route tid).2 = Except.ok r) := by
  refine ⟨fun msg hmsg => ?_, fun r hr => ?_, ?_⟩
  · simp [handleGetResult, hmsg]
  · simp [handleGetResult, hr]
  · cases hp : runParse (route tid).1 (route tid).2 with
    | ok r => simp [handleGetResult, hp]
    | error msg => simp [handleGetResult, hp]

theorem claim_C8_witness :
    handleGetResult "X".toList "ip".toList "ua".toList
        (fun _ _ => Except.error "boom".toList) =
      ({ status := 500,
         body := ResponseBody.failure "Failed to process transaction"
           "boom".toList "X".toList }, []) :=
  (claim_C8 "X".toList "ip".toList "ua".toList
    (fun _ _ => Except.error "boom".toList)).1 "boom".toList rfl

/-! ### Claim theorems: normalisation and fallbacks -/

/-- C3 counterexample: on a successfully extracted CBE document that has
no "Payer" label, the `payer` field of the output is `null`, not a
fallback string: the claim "each missing field holds a defined fallback
string (never null)" is false. -/
theorem claim_C3_counterexample :
    List.lookup "payer"
      (parseFTRecord "no data here".toList "T1".toList "L".toList).data = some none := by
  decide

/-- C3 (amended): only `payerAccount`, `receiverAccount` and
`totalAmount` of the CBE extractor always carry a defined string after
normalization; every Telebirr field is a string (never null), with
`bankAccountNumber` additionally guaranteed non-empty by its fallback;
the remaining CBE fields stay null when missing. -/
theorem claim_C3_amended :
    (∀ text : Str,
      (∃ s, List.lookup "payerAccount" (parseFTData text) = some (some s)) ∧
      (∃ s, List.lookup "receiverAccount" (parseFTData text) = some (some s)) ∧
      (∃ s, List.lookup "totalAmount" (parseFTData text) = some (some s))) ∧
    (∀ doc : TDoc,
      (∀ kv ∈ parseTelebirrData doc, kv.2 ≠ none) ∧
      (∃ s, s ≠ [] ∧
        List.lookup "bankAccountNumber" (parseTelebirrData doc) = some (some s))) := by
  constructor
  · intro text
    refine ⟨⟨jsOrOpt (extract text (lits "Account") (lits "Receiver")) "Unknown".toList, ?_⟩,
      ⟨jsOrOpt (extract text maskedAccountPat (lits "Payment Date & Time"))
        "1000009338067".toList, ?_⟩,
      ⟨etbSuffix (extract text (lits "Total amount debited from customers account")
        (lits "Amount in Word")), ?_⟩⟩ <;>
      simp [parseFTData, List.lookup]
  · intro doc
    constructor
    · intro kv hkv
      simp [parseTelebirrData] at hkv
      rcases hkv with h | h | h | h | h | h | h | h <;> (subst h; simp)
    · by_cases hb : jsTrim (nextTexts doc lblBankAccount) = []
      · exact ⟨"Not available".toList, by decide,
          by simp [parseTelebirrData, List.lookup, hb]⟩
      · exact ⟨jsTrim (nextTexts doc lblBankAccount), hb,
          by simp [parseTelebirrData, List.lookup, hb]⟩

/-- C5: for any CBE document text, a missing label does not abort the
(total) extraction: an absent "Account" label yields
`payerAccount = "Unknown"`, an absent masked-account pattern yields the
fixed account literal, and an absent total-amount label yields
`totalAmount = "Unknown"`. -/
theorem claim_C5 (text : Str) :
    (hasPat (lits "Account") text = false →
      List.lookup "payerAccount" (parseFTData text) = some (some "Unknown".toList)) ∧
    (hasPat maskedAccountPat text = false →
      List.lookup "receiverAccount" (parseFTData text) =
        some (some "1000009338067".toList)) ∧
    (hasPat (lits "Total amount debited from customers account") text = false →
      List.lookup "totalAmount" (parseFTData text) = some (some "Unknown".toList)) := by
  refine ⟨fun h => ?_, fun h => ?_, fun h => ?_⟩
  · have he : extract text (lits "Account") (lits "Receiver") = none := by
      unfold extract
      rw [extractCore_none_of_no_match _ _ text h]
      rfl
    simp [parseFTData, List.lookup, he, jsOrOpt]
  · have he : extract text maskedAccountPat (lits "Payment Date & Time") = none := by
      unfold extract
      rw [extractCore_none_of_no_match _ _ text h]
      rfl
    simp [parseFTData, List.lookup, he, jsOrOpt]
  · have he : extract text (lits "Total amount debited from customers account")
        (lits "Amount in Word") = none := by
      unfold extract
      rw [extractCore_none_of_no_match _ _ text h]
      rfl
    simp [parseFTData, List.lookup, he, etbSuffix]

theorem claim_C5_witness :
    List.lookup "payerAccount" (parseFTData []) = some (some "Unknown".toList) ∧
    List.lookup "receiverAccount" (parseFTData []) = some (some "1000009338067".toList) ∧
    List.lookup "totalAmount" (parseFTData []) = some (some "Unknown".toList) :=
  ⟨(claim_C5 []).1 (by decide), (claim_C5 []).2.1 (by decide),
    (claim_C5 []).2.2 (by decide)⟩

/-- C9 counterexample: on the decoded text "a\tb\rc" the normalisation is
the identity: the tab survives (a whitespace character that is not a
space) and the carriage return survives (a line break), refuting "no
line breaks and every remaining whitespace character is a single
space". -/
theorem claim_C9_counterexample :
    normalizeText "a\tb\rc".toList = "a\tb\rc".toList ∧
    ('\t' ∈ normalizeText "a\tb\rc".toList ∧ isJsWS '\t' = true ∧ '\t' ≠ ' ') ∧
    '\r' ∈ normalizeText "a\tb\rc".toList := by
  decide

/-- C9 (amended): the normalisation step replaces every LF (with its
optional preceding CR) and collapses every run of two or more whitespace
characters to a single space, so the result contains no LF and no two
consecutive whitespace characters; an isolated CR or other single
whitespace character may remain. -/
theorem claim_C9_amended (s : Str) :
    noConsecWS (normalizeText s) = true ∧ '\n' ∉ normalizeText s := by
  constructor
  · exact noConsec_collapse (replaceNewlines s)
  · intro hmem
    rcases mem_collapse '\n' (replaceNewlines s) hmem with h | h
    · exact no_newline_replace s h
    · exact absurd h (by decide)

/-! ### Claim C7: a fully-labelled Telebirr document with an empty
bank-account cell -/

/-- The six `:contains` labels, for stating that a value cell is free of
label text. -/
def telebirrLabels : List Str :=
  [lblPayerName, lblPayerTelebirrNo, lblCreditedParty,
   lblPaymentReason, lblBankAccount, lblTotalPaid]

/-- Header texts of the receipt-number/payment-date row (the two cells
carrying the `receipttableTd2` class). -/
def markerText1 : Str := "ደረሰኝ ቁጥር/Receipt No".toList
def markerText2 : Str := "የክፍያ ቀን/Payment date".toList

/-- A Telebirr receipt document in which every bilingual label is
present, each label cell is followed by its value cell, the
receipt-number/payment-date pair sits in the row after the marker row,
and the bank-account value cell is empty. -/
def telebirrDoc (vReceiptNo vPaymentDate vPayerName vPayerNo vCredited vPayType vTotal : Str) :
    TDoc :=
  ⟨[⟨[⟨markerText1, true⟩, ⟨markerText2, true⟩]⟩,
    ⟨[⟨vReceiptNo, false⟩, ⟨vPaymentDate, false⟩]⟩,
    ⟨[⟨lblPayerName, false⟩, ⟨vPayerName, false⟩]⟩,
    ⟨[⟨lblPayerTelebirrNo, false⟩, ⟨vPayerNo, false⟩]⟩,
    ⟨[⟨lblCreditedParty, false⟩, ⟨vCredited, false⟩]⟩,
    ⟨[⟨lblPaymentReason, false⟩, ⟨vPayType, false⟩]⟩,
    ⟨[⟨lblBankAccount, false⟩, ⟨[], false⟩]⟩,
    ⟨[⟨lblTotalPaid, false⟩, ⟨vTotal, false⟩]⟩]⟩

theorem telebirrDoc_data (vReceiptNo vPaymentDate vPayerName vPayerNo vCredited vPayType vTotal : Str)
    (hfree : ∀ L ∈ telebirrLabels, containsSubstr vReceiptNo L = false) :
    parseTelebirrData
        (telebirrDoc vReceiptNo vPaymentDate vPayerName vPayerNo vCredited vPayType vTotal) =
      [("paymentType", some (jsTrim vPayType)),
       ("payerName", some (jsTrim vPayerName)),
       ("payerTelebirrNumber", some (jsTrim vPayerNo)),
       ("creditedPartyName", some (jsTrim vCredited)),
       ("bankAccountNumber", some "Not available".toList),
       ("receiptNumber", some (jsTrim vReceiptNo)),
       ("paymentDate", some (jsTrim vPaymentDate)),
       ("totalAmountPaid", some (jsTrim vTotal))] := by
  have h1 : containsSubstr vReceiptNo lblPayerName = false :=
    hfree lblPayerName (by simp [telebirrLabels])
  have h2 : containsSubstr vReceiptNo lblPayerTelebirrNo = false :=
    hfree lblPayerTelebirrNo (by simp [telebirrLabels])
  have h3 : containsSubstr vReceiptNo lblCreditedParty = false :=
    hfree lblCreditedParty (by simp [telebirrLabels])
  have h4 : containsSubstr vReceiptNo lblPaymentReason = false :=
    hfree lblPaymentReason (by simp [telebirrLabels])
  have h5 : containsSubstr vReceiptNo lblBankAccount = false :=
    hfree lblBankAccount (by simp [telebirrLabels])
  have h6 : containsSubstr vReceiptNo lblTotalPaid = false :=
    hfree lblTotalPaid (by simp [telebirrLabels])
  simp +decide [parseTelebirrData, telebirrDoc, nextTexts, rowNexts, positionalFields,
    findMarker, findCellIdx, h1, h2, h3, h4, h5, h6]

/-- C7: for every Telebirr HTML document without the sentinel phrase
whose parsed table carries all bilingual labels with adjacent value
cells but an empty bank-account cell, the extractor succeeds,
`bankAccountNumber` falls back to "Not available", and every other field
is read (trimmed) from its corresponding cell. -/
theorem claim_C7 (html : Str)
    (vReceiptNo vPaymentDate vPayerName vPayerNo vCredited vPayType vTotal : Str)
    (tid link : Str)
    (hsent : containsSubstr html invalidSentinel = false)
    (hfree : ∀ L ∈ telebirrLabels, containsSubstr vReceiptNo L = false) :
    parseTelebirr html
        (telebirrDoc vReceiptNo vPaymentDate vPayerName vPayerNo vCredited vPayType vTotal)
        tid link =
      Except.ok
        { source := SourceNetwork.Telebirr
          transactionId := tid
          link := link
          data :=
            [("paymentType", some (jsTrim vPayType)),
             ("payerName", some (jsTrim vPayerName)),
             ("payerTelebirrNumber", some (jsTrim vPayerNo)),
             ("creditedPartyName", some (jsTrim vCredited)),
             ("bankAccountNumber", some "Not available".toList),
             ("receiptNumber", some (jsTrim vReceiptNo)),
             ("paymentDate", some (jsTrim vPaymentDate)),
             ("totalAmountPaid", some (jsTrim vTotal))] } := by
  rw [show parseTelebirr html
      (telebirrDoc vReceiptNo vPaymentDate vPayerName vPayerNo vCredited vPayType vTotal)
      tid link =
    Except.ok
      { source := SourceNetwork.Telebirr
        transactionId := tid
        link := link
        data := parseTelebirrData
          (telebirrDoc vReceiptNo vPaymentDate vPayerName vPayerNo vCredited vPayType vTotal) }
    from by simp [parseTelebirr, hsent]]
  rw [telebirrDoc_data vReceiptNo vPaymentDate vPayerName vPayerNo vCredited vPayType vTotal hfree]

theorem claim_C7_witness :
    parseTelebirr "<table>receipt</table>".toList
        (telebirrDoc "A1".toList "B2".toList "C3".toList "D4".toList "E5".toList
          "F6".toList "G7".toList)
        "T".toList "L".toList =
      Except.ok
        { source := SourceNetwork.Telebirr
          transactionId := "T".toList
          link := "L".toList
          data :=
            [("paymentType", some (jsTrim "F6".toList)),
             ("payerName", some (jsTrim "C3".toList)),
             ("payerTelebirrNumber", some (jsTrim "D4".toList)),
             ("creditedPartyName", some (jsTrim "E5".toList)),
             ("bankAccountNumber", some "Not available".toList),
             ("receiptNumber", some (jsTrim "A1".toList)),
             ("paymentDate", some (jsTrim "B2".toList)),
             ("totalAmountPaid", some (jsTrim "G7".toList))] } :=
  claim_C7 "<table>receipt</table>".toList "A1".toList "B2".toList "C3".toList "D4".toList
    "E5".toList "F6".toList "G7".toList "T".toList "L".toList (by decide) (by decide)

/-! ### Claim C4: a well-formed CBE document -/

/-- Well-formedness of a field value in the flattened CBE text: nonempty
and made of safe characters (digits, punctuation, …), so that it cannot
collide with any label or anchor pattern, all of which begin with an
ASCII letter, and is inert for `\s*`, `.` and `trim`. -/
def SafeVal (v : Str) : Prop := v ≠ [] ∧ ∀ c ∈ v, safeChar c = true

instance (v : Str) : Decidable (SafeVal v) := by
  unfold SafeVal
  infer_instance

/-- The flattened text of a CBE receipt carrying all eight labels in the
documented order, with a value between each label and the next anchor.
The digits `ds` are the last four digits of the masked receiver
account. -/
def cbeText (v1 v2 v3 ds v5 v6 v7 v7b v8 : Str) : Str :=
  "Payer ".toList ++ v1 ++ " ".toList ++
  "Account ".toList ++ v2 ++ " ".toList ++
  "Receiver ".toList ++ v3 ++ " ".toList ++
  "Account 1****".toList ++ ds ++ " ".toList ++
  "Payment Date & Time ".toList ++ v5 ++ " ".toList ++
  "Reference No. (VAT Invoice No) ".toList ++ v6 ++ " ".toList ++
  "Reason / Type of service ".toList ++ v7 ++ " ".toList ++
  "Transferred Amount ".toList ++ v7b ++ " ".toList ++
  "Total amount debited from customers account ".toList ++ v8 ++ " ".toList ++
  "Amount in Word".toList

theorem wsThen_at_label (B : Pat) (lab r' rest2 : Str) (hm : matchSimple B lab = some r') :
    wsThen B (lab ++ rest2) = true :=
  wsThen_of_match B _ (by rw [matchSimple_extend B lab r' rest2 hm]; rfl)

theorem wsThen_sep_label (B : Pat) (lab r' rest2 : Str) (hm : matchSimple B lab = some r') :
    wsThen B (" ".toList ++ (lab ++ rest2)) = true :=
  wsThen_ws_cons B ' ' (lab ++ rest2) (by decide) (wsThen_at_label B lab r' rest2 hm)

/-- The found-step shared by seven of the eight fields: the label matches
here leaving one space, then a safe nonempty value, then text where
`\s*B` matches: the capture is the value. -/
theorem extractCore_label_value (A B : Pat) (hhB : headIsLetter B = true)
    (lab : Str) (hm : matchSimple A lab = some [' '])
    (v : Str) (hv : ∀ c ∈ v, safeChar c = true) (hne : v ≠ [])
    (t : Str) (hws : wsThen B t = true) :
    extractCore A B (lab ++ (v ++ t)) = some v :=
  extractCore_found A B _ ([' '] ++ (v ++ t)) v
    (matchSimple_extend A lab [' '] (v ++ t) hm)
    (matchTailQ1_value B hhB v t hv hne hws)

/-- The masked receiver-account pattern can start at the payer-account
label "Account " only by continuing `1****` into the value, which safe
values cannot provide: the whole-pattern attempt at that position
fails. -/
theorem maskedPat_fail_at_label (v2 t' : Str) (hv : ∀ c ∈ v2, safeChar c = true) :
    matchSimple maskedAccountPat ("Account ".toList ++ (v2 ++ (" ".toList ++ t'))) = none := by
  have hsp : maskedAccountPat = lits "Account " ++
      (lits "1****" ++ [PItem.digitC, PItem.digitC, PItem.digitC, PItem.digitC]) := by decide
  rw [hsp, matchSimple_append,
    matchSimple_extend (lits "Account ") "Account ".toList [] _ (by decide)]
  simp only [List.nil_append, Option.some_bind]
  cases v2 with
  | nil =>
    have h1 : ciEq '1' ' ' = false := by decide
    simp [lits, matchSimple, h1]
  | cons c v2' =>
    rw [List.cons_append]
    by_cases hc : ciEq '1' c = true
    · cases v2' with
      | nil =>
        have hstar : ciEq '*' ' ' = false := by decide
        simp [lits, matchSimple, hc, hstar]
      | cons c2 v2'' =>
        have hstar : ciEq '*' c2 = false := ciEq_star_safe c2 (hv c2 (by simp))
        simp [lits, matchSimple, hc, hstar]
    · simp [lits, matchSimple, hc]

/-- Scanning the masked pattern across the payer-account label and its
value advances past both. -/
theorem masked_skip_account (B : Pat) (v2 t'' : Str) (hv : ∀ c ∈ v2, safeChar c = true) :
    extractCore maskedAccountPat B ("Account ".toList ++ (v2 ++ (" ".toList ++ t''))) =
      extractCore maskedAccountPat B (" ".toList ++ t'') := by
  have hm := maskedPat_fail_at_label v2 t'' hv
  have step1 : extractCore maskedAccountPat B
      ("Account ".toList ++ (v2 ++ (" ".toList ++ t''))) =
      extractCore maskedAccountPat B ("ccount ".toList ++ (v2 ++ (" ".toList ++ t''))) :=
    extractCore_cons_none _ _ 'A' ("ccount ".toList ++ (v2 ++ (" ".toList ++ t''))) hm
  rw [step1, scanFail_skip _ _ "ccount ".toList _ (by decide),
    extractCore_skip_safe _ _ (by decide) v2 _ hv]

/-- The found-step for the masked receiver account: the pattern consumes
the label, the stars and the four digits, and the capture before the
immediately following date label is empty. -/
theorem extractCore_masked_found (B : Pat) (d1 d2 d3 d4 : Char)
    (hd1 : jsDigit d1 = true) (hd2 : jsDigit d2 = true)
    (hd3 : jsDigit d3 = true) (hd4 : jsDigit d4 = true)
    (t : Str) (h0 : wsRunLen t = 0) (hws : wsThen B t = true) :
    extractCore maskedAccountPat B
      ("Account 1****".toList ++ ([d1, d2, d3, d4] ++ (" ".toList ++ t))) = some [] := by
  have hm : matchSimple maskedAccountPat
      ("Account 1****".toList ++ ([d1, d2, d3, d4] ++ (" ".toList ++ t))) =
      some (" ".toList ++ t) := by
    have hsp : maskedAccountPat = lits "Account 1****" ++
        [PItem.digitC, PItem.digitC, PItem.digitC, PItem.digitC] := rfl
    rw [hsp, matchSimple_append,
      matchSimple_extend (lits "Account 1****") "Account 1****".toList [] _ (by decide)]
    simp only [List.nil_append, Option.some_bind]
    simp [matchSimple, hd1, hd2, hd3, hd4]
  exact extractCore_found _ _ _ (" ".toList ++ t) [] hm (matchTailQ1_empty B t h0 hws)

theorem cbe_e_payer (v1 v2 v3 : Str) (d1 d2 d3 d4 : Char) (v5 v6 v7 v7b v8 : Str)
    (h1 : SafeVal v1) :
    extract (cbeText v1 v2 v3 [d1, d2, d3, d4] v5 v6 v7 v7b v8)
      (lits "Payer") (lits "Account") = some v1 := by
  have hcore : extractCore (lits "Payer") (lits "Account")
      (cbeText v1 v2 v3 [d1, d2, d3, d4] v5 v6 v7 v7b v8) = some v1 := by
    simp only [cbeText, List.append_assoc]
    exact extractCore_label_value (lits "Payer") (lits "Account") (by decide) "Payer ".toList (by decide)
      v1 h1.2 h1.1 _
      (wsThen_sep_label (lits "Account") "Account ".toList [' '] _ (by decide))
  unfold extract
  rw [hcore]
  simp [jsTrim_safe v1 h1.2]

theorem cbe_e_payerAccount (v1 v2 v3 : Str) (d1 d2 d3 d4 : Char) (v5 v6 v7 v7b v8 : Str)
    (h1 : SafeVal v1) (h2 : SafeVal v2) :
    extract (cbeText v1 v2 v3 [d1, d2, d3, d4] v5 v6 v7 v7b v8)
      (lits "Account") (lits "Receiver") = some v2 := by
  have hcore : extractCore (lits "Account") (lits "Receiver")
      (cbeText v1 v2 v3 [d1, d2, d3, d4] v5 v6 v7 v7b v8) = some v2 := by
    simp only [cbeText, List.append_assoc]
    rw [scanFail_skip (lits "Account") (lits "Receiver") "Payer ".toList _ (by decide),
      extractCore_skip_safe (lits "Account") (lits "Receiver") (by decide) v1 _ h1.2,
      scanFail_skip (lits "Account") (lits "Receiver") " ".toList _ (by decide)]
    exact extractCore_label_value (lits "Account") (lits "Receiver") (by decide) "Account ".toList (by decide)
      v2 h2.2 h2.1 _
      (wsThen_sep_label (lits "Receiver") "Receiver ".toList [' '] _ (by decide))
  unfold extract
  rw [hcore]
  simp [jsTrim_safe v2 h2.2]

theorem cbe_e_receiver (v1 v2 v3 : Str) (d1 d2 d3 d4 : Char) (v5 v6 v7 v7b v8 : Str)
    (h1 : SafeVal v1) (h2 : SafeVal v2) (h3 : SafeVal v3) :
    extract (cbeText v1 v2 v3 [d1, d2, d3, d4] v5 v6 v7 v7b v8)
      (lits "Receiver") (lits "Account") = some v3 := by
  have hcore : extractCore (lits "Receiver") (lits "Account")
      (cbeText v1 v2 v3 [d1, d2, d3, d4] v5 v6 v7 v7b v8) = some v3 := by
    simp only [cbeText, List.append_assoc]
    rw [scanFail_skip (lits "Receiver") (lits "Account") "Payer ".toList _ (by decide),
      extractCore_skip_safe (lits "Receiver") (lits "Account") (by decide) v1 _ h1.2,
      scanFail_skip (lits "Receiver") (lits "Account") " ".toList _ (by decide),
      scanFail_skip (lits "Receiver") (lits "Account") "Account ".toList _ (by decide),
      extractCore_skip_safe (lits "Receiver") (lits "Account") (by decide) v2 _ h2.2,
      scanFail_skip (lits "Receiver") (lits "Account") " ".toList _ (by decide)]
    exact extractCore_label_value (lits "Receiver") (lits "Account") (by decide) "Receiver ".toList (by decide)
      v3 h3.2 h3.1 _
      (wsThen_sep_label (lits "Account") "Account 1****".toList " 1****".toList _ (by decide))
  unfold extract
  rw [hcore]
  simp [jsTrim_safe v3 h3.2]

theorem cbe_e_receiverAccount (v1 v2 v3 : Str) (d1 d2 d3 d4 : Char) (v5 v6 v7 v7b v8 : Str)
    (h1 : SafeVal v1) (h2 : SafeVal v2) (h3 : SafeVal v3)
    (hd1 : jsDigit d1 = true) (hd2 : jsDigit d2 = true)
    (hd3 : jsDigit d3 = true) (hd4 : jsDigit d4 = true) :
    extract (cbeText v1 v2 v3 [d1, d2, d3, d4] v5 v6 v7 v7b v8)
      maskedAccountPat (lits "Payment Date & Time") = some [] := by
  have hcore : extractCore maskedAccountPat (lits "Payment Date & Time")
      (cbeText v1 v2 v3 [d1, d2, d3, d4] v5 v6 v7 v7b v8) = some [] := by
    simp only [cbeText, List.append_assoc]
    rw [scanFail_skip maskedAccountPat (lits "Payment Date & Time") "Payer ".toList _ (by decide),
      extractCore_skip_safe maskedAccountPat (lits "Payment Date & Time") (by decide) v1 _ h1.2,
      scanFail_skip maskedAccountPat (lits "Payment Date & Time") " ".toList _ (by decide),
      masked_skip_account (lits "Payment Date & Time") v2 _ h2.2,
      scanFail_skip maskedAccountPat (lits "Payment Date & Time") " ".toList _ (by decide),
      scanFail_skip maskedAccountPat (lits "Payment Date & Time") "Receiver ".toList _ (by decide),
      extractCore_skip_safe maskedAccountPat (lits "Payment Date & Time") (by decide) v3 _ h3.2,
      scanFail_skip maskedAccountPat (lits "Payment Date & Time") " ".toList _ (by decide)]
    exact extractCore_masked_found (lits "Payment Date & Time") d1 d2 d3 d4 hd1 hd2 hd3 hd4 _
      (wsRunLen_cons_not 'P' _ (by decide))
      (wsThen_at_label (lits "Payment Date & Time") "Payment Date & Time ".toList [' '] _ (by decide))
  unfold extract
  rw [hcore]
  rfl

theorem digits_safe (d1 d2 d3 d4 : Char)
    (hd1 : jsDigit d1 = true) (hd2 : jsDigit d2 = true)
    (hd3 : jsDigit d3 = true) (hd4 : jsDigit d4 = true) :
    ∀ c ∈ [d1, d2, d3, d4], safeChar c = true := by
  intro c hc
  simp only [List.mem_cons, List.not_mem_nil, or_false] at hc
  rcases hc with rfl | rfl | rfl | rfl
  exacts [digit_safe _ hd1, digit_safe _ hd2, digit_safe _ hd3, digit_safe _ hd4]

theorem cbe_e_dateTime (v1 v2 v3 : Str) (d1 d2 d3 d4 : Char) (v5 v6 v7 v7b v8 : Str)
    (h1 : SafeVal v1) (h2 : SafeVal v2) (h3 : SafeVal v3)
    (hd1 : jsDigit d1 = true) (hd2 : jsDigit d2 = true)
    (hd3 : jsDigit d3 = true) (hd4 : jsDigit d4 = true)
    (h5 : SafeVal v5) :
    extract (cbeText v1 v2 v3 [d1, d2, d3, d4] v5 v6 v7 v7b v8)
      (lits "Payment Date & Time") (lits "Reference No") = some v5 := by
  have hds := digits_safe d1 d2 d3 d4 hd1 hd2 hd3 hd4
  have hcore : extractCore (lits "Payment Date & Time") (lits "Reference No")
      (cbeText v1 v2 v3 [d1, d2, d3, d4] v5 v6 v7 v7b v8) = some v5 := by
    simp only [cbeText, List.append_assoc]
    rw [scanFail_skip (lits "Payment Date & Time") (lits "Reference No") "Payer ".toList _ (by decide),
      extractCore_skip_safe (lits "Payment Date & Time") (lits "Reference No") (by decide) v1 _ h1.2,
      scanFail_skip (lits "Payment Date & Time") (lits "Reference No") " ".toList _ (by decide),
      scanFail_skip (lits "Payment Date & Time") (lits "Reference No") "Account ".toList _ (by decide),
      extractCore_skip_safe (lits "Payment Date & Time") (lits "Reference No") (by decide) v2 _ h2.2,
      scanFail_skip (lits "Payment Date & Time") (lits "Reference No") " ".toList _ (by decide),
      scanFail_skip (lits "Payment Date & Time") (lits "Reference No") "Receiver ".toList _ (by decide),
      extractCore_skip_safe (lits "Payment Date & Time") (lits "Reference No") (by decide) v3 _ h3.2,
      scanFail_skip (lits "Payment Date & Time") (lits "Reference No") " ".toList _ (by decide),
      scanFail_skip (lits "Payment Date & Time") (lits "Reference No") "Account 1****".toList _ (by decide),
      extractCore_skip_safe (lits "Payment Date & Time") (lits "Reference No") (by decide) [d1, d2, d3, d4] _ hds,
      scanFail_skip (lits "Payment Date & Time") (lits "Reference No") " ".toList _ (by decide)]
    exact extractCore_label_value (lits "Payment Date & Time") (lits "Reference No") (by decide) "Payment Date & Time ".toList (by decide)
      v5 h5.2 h5.1 _
      (wsThen_sep_label (lits "Reference No") "Reference No. (VAT Invoice No) ".toList
        ". (VAT Invoice No) ".toList _ (by decide))
  unfold extract
  rw [hcore]
  simp [jsTrim_safe v5 h5.2]

theorem cbe_e_reference (v1 v2 v3 : Str) (d1 d2 d3 d4 : Char) (v5 v6 v7 v7b v8 : Str)
    (h1 : SafeVal v1) (h2 : SafeVal v2) (h3 : SafeVal v3)
    (hd1 : jsDigit d1 = true) (hd2 : jsDigit d2 = true)
    (hd3 : jsDigit d3 = true) (hd4 : jsDigit d4 = true)
    (h5 : SafeVal v5) (h6 : SafeVal v6) :
    extract (cbeText v1 v2 v3 [d1, d2, d3, d4] v5 v6 v7 v7b v8)
      (lits "Reference No. (VAT Invoice No)") (lits "Reason") = some v6 := by
  have hds := digits_safe d1 d2 d3 d4 hd1 hd2 hd3 hd4
  have hcore : extractCore (lits "Reference No. (VAT Invoice No)") (lits "Reason")
      (cbeText v1 v2 v3 [d1, d2, d3, d4] v5 v6 v7 v7b v8) = some v6 := by
    simp only [cbeText, List.append_assoc]
    rw [scanFail_skip (lits "Reference No. (VAT Invoice No)") (lits "Reason") "Payer ".toList _ (by decide),
      extractCore_skip_safe (lits "Reference No. (VAT Invoice No)") (lits "Reason") (by decide) v1 _ h1.2,
      scanFail_skip (lits "Reference No. (VAT Invoice No)") (lits "Reason") " ".toList _ (by decide),
      scanFail_skip (lits "Reference No. (VAT Invoice No)") (lits "Reason") "Account ".toList _ (by decide),
      extractCore_skip_safe (lits "Reference No. (VAT Invoice No)") (lits "Reason") (by decide) v2 _ h2.2,
      scanFail_skip (lits "Reference No. (VAT Invoice No)") (lits "Reason") " ".toList _ (by decide),
      scanFail_skip (lits "Reference No. (VAT Invoice No)") (lits "Reason") "Receiver ".toList _ (by decide),
      extractCore_skip_safe (lits "Reference No. (VAT Invoice No)") (lits "Reason") (by decide) v3 _ h3.2,
      scanFail_skip (lits "Reference No. (VAT Invoice No)") (lits "Reason") " ".toList _ (by decide),
      scanFail_skip (lits "Reference No. (VAT Invoice No)") (lits "Reason") "Account 1****".toList _ (by decide),
      extractCore_skip_safe (lits "Reference No. (VAT Invoice No)") (lits "Reason") (by decide) [d1, d2, d3, d4] _ hds,
      scanFail_skip (lits "Reference No. (VAT Invoice No)") (lits "Reason") " ".toList _ (by decide),
      scanFail_skip (lits "Reference No. (VAT Invoice No)") (lits "Reason") "Payment Date & Time ".toList _ (by decide),
      extractCore_skip_safe (lits "Reference No. (VAT Invoice No)") (lits "Reason") (by decide) v5 _ h5.2,
      scanFail_skip (lits "Reference No. (VAT Invoice No)") (lits "Reason") " ".toList _ (by decide)]
    exact extractCore_label_value (lits "Reference No. (VAT Invoice No)") (lits "Reason") (by decide) "Reference No. (VAT Invoice No) ".toList (by decide)
      v6 h6.2 h6.1 _
      (wsThen_sep_label (lits "Reason") "Reason / Type of service ".toList
        " / Type of service ".toList _ (by decide))
  unfold extract
  rw [hcore]
  simp [jsTrim_safe v6 h6.2]

theorem cbe_e_reason (v1 v2 v3 : Str) (d1 d2 d3 d4 : Char) (v5 v6 v7 v7b v8 : Str)
    (h1 : SafeVal v1) (h2 : SafeVal v2) (h3 : SafeVal v3)
    (hd1 : jsDigit d1 = true) (hd2 : jsDigit d2 = true)
    (hd3 : jsDigit d3 = true) (hd4 : jsDigit d4 = true)
    (h5 : SafeVal v5) (h6 : SafeVal v6) (h7 : SafeVal v7) :
    extract (cbeText v1 v2 v3 [d1, d2, d3, d4] v5 v6 v7 v7b v8)
      (lits "Reason / Type of service") (lits "Transferred Amount") = some v7 := by
  have hds := digits_safe d1 d2 d3 d4 hd1 hd2 hd3 hd4
  have hcore : extractCore (lits "Reason / Type of service") (lits "Transferred Amount")
      (cbeText v1 v2 v3 [d1, d2, d3, d4] v5 v6 v7 v7b v8) = some v7 := by
    simp only [cbeText, List.append_assoc]
    rw [scanFail_skip (lits "Reason / Type of service") (lits "Transferred Amount") "Payer ".toList _ (by decide),
      extractCore_skip_safe (lits "Reason / Type of service") (lits "Transferred Amount") (by decide) v1 _ h1.2,
      scanFail_skip (lits "Reason / Type of service") (lits "Transferred Amount") " ".toList _ (by decide),
      scanFail_skip (lits "Reason / Type of service") (lits "Transferred Amount") "Account ".toList _ (by decide),
      extractCore_skip_safe (lits "Reason / Type of service") (lits "Transferred Amount") (by decide) v2 _ h2.2,
      scanFail_skip (lits "Reason / Type of service") (lits "Transferred Amount") " ".toList _ (by decide),
      scanFail_skip (lits "Reason / Type of service") (lits "Transferred Amount") "Receiver ".toList _ (by decide),
      extractCore_skip_safe (lits "Reason / Type of service") (lits "Transferred Amount") (by decide) v3 _ h3.2,
      scanFail_skip (lits "Reason / Type of service") (lits "Transferred Amount") " ".toList _ (by decide),
      scanFail_skip (lits "Reason / Type of service") (lits "Transferred Amount") "Account 1****".toList _ (by decide),
      extractCore_skip_safe (lits "Reason / Type of service") (lits "Transferred Amount") (by decide) [d1, d2, d3, d4] _ hds,
      scanFail_skip (lits "Reason / Type of service") (lits "Transferred Amount") " ".toList _ (by decide),
      scanFail_skip (lits "Reason / Type of service") (lits "Transferred Amount") "Payment Date & Time ".toList _ (by decide),
      extractCore_skip_safe (lits "Reason / Type of service") (lits "Transferred Amount") (by decide) v5 _ h5.2,
      scanFail_skip (lits "Reason / Type of service") (lits "Transferred Amount") " ".toList _ (by decide),
      scanFail_skip (lits "Reason / Type of service") (lits "Transferred Amount") "Reference No. (VAT Invoice No) ".toList _ (by decide),
      extractCore_skip_safe (lits "Reason / Type of service") (lits "Transferred Amount") (by decide) v6 _ h6.2,
      scanFail_skip (lits "Reason / Type of service") (lits "Transferred Amount") " ".toList _ (by decide)]
    exact extractCore_label_value (lits "Reason / Type of service") (lits "Transferred Amount") (by decide) "Reason / Type of service ".toList (by decide)
      v7 h7.2 h7.1 _
      (wsThen_sep_label (lits "Transferred Amount") "Transferred Amount ".toList [' '] _ (by decide))
  unfold extract
  rw [hcore]
  simp [jsTrim_safe v7 h7.2]

theorem cbe_e_totalAmount (v1 v2 v3 : Str) (d1 d2 d3 d4 : Char) (v5 v6 v7 v7b v8 : Str)
    (h1 : SafeVal v1) (h2 : SafeVal v2) (h3 : SafeVal v3)
    (hd1 : jsDigit d1 = true) (hd2 : jsDigit d2 = true)
    (hd3 : jsDigit d3 = true) (hd4 : jsDigit d4 = true)
    (h5 : SafeVal v5) (h6 : SafeVal v6) (h7 : SafeVal v7) (h7b : SafeVal v7b)
    (h8 : SafeVal v8) :
    extract (cbeText v1 v2 v3 [d1, d2, d3, d4] v5 v6 v7 v7b v8)
      (lits "Total amount debited from customers account") (lits "Amount in Word") = some v8 := by
  have hds := digits_safe d1 d2 d3 d4 hd1 hd2 hd3 hd4
  have hcore : extractCore (lits "Total amount debited from customers account") (lits "Amount in Word")
      (cbeText v1 v2 v3 [d1, d2, d3, d4] v5 v6 v7 v7b v8) = some v8 := by
    simp only [cbeText, List.append_assoc]
    rw [scanFail_skip (lits "Total amount debited from customers account") (lits "Amount in Word") "Payer ".toList _ (by decide),
      extractCore_skip_safe (lits "Total amount debited from customers account") (lits "Amount in Word") (by decide) v1 _ h1.2,
      scanFail_skip (lits "Total amount debited from customers account") (lits "Amount in Word") " ".toList _ (by decide),
      scanFail_skip (lits "Total amount debited from customers account") (lits "Amount in Word") "Account ".toList _ (by decide),
      extractCore_skip_safe (lits "Total amount debited from customers account") (lits "Amount in Word") (by decide) v2 _ h2.2,
      scanFail_skip (lits "Total amount debited from customers account") (lits "Amount in Word") " ".toList _ (by decide),
      scanFail_skip (lits "Total amount debited from customers account") (lits "Amount in Word") "Receiver ".toList _ (by decide),
      extractCore_skip_safe (lits "Total amount debited from customers account") (lits "Amount in Word") (by decide) v3 _ h3.2,
      scanFail_skip (lits "Total amount debited from customers account") (lits "Amount in Word") " ".toList _ (by decide),
      scanFail_skip (lits "Total amount debited from customers account") (lits "Amount in Word") "Account 1****".toList _ (by decide),
      extractCore_skip_safe (lits "Total amount debited from customers account") (lits "Amount in Word") (by decide) [d1, d2, d3, d4] _ hds,
      scanFail_skip (lits "Total amount debited from customers account") (lits "Amount in Word") " ".toList _ (by decide),
      scanFail_skip (lits "Total amount debited from customers account") (lits "Amount in Word") "Payment Date & Time ".toList _ (by decide),
      extractCore_skip_safe (lits "Total amount debited from customers account") (lits "Amount in Word") (by decide) v5 _ h5.2,
      scanFail_skip (lits "Total amount debited from customers account") (lits "Amount in Word") " ".toList _ (by decide),
      scanFail_skip (lits "Total amount debited from customers account") (lits "Amount in Word") "Reference No. (VAT Invoice No) ".toList _ (by decide),
      extractCore_skip_safe (lits "Total amount debited from customers account") (lits "Amount in Word") (by decide) v6 _ h6.2,
      scanFail_skip (lits "Total amount debited from customers account") (lits "Amount in Word") " ".toList _ (by decide),
      scanFail_skip (lits "Total amount debited from customers account") (lits "Amount in Word") "Reason / Type of service ".toList _ (by decide),
      extractCore_skip_safe (lits "Total amount debited from customers account") (lits "Amount in Word") (by decide) v7 _ h7.2,
      scanFail_skip (lits "Total amount debited from customers account") (lits "Amount in Word") " ".toList _ (by decide),
      scanFail_skip (lits "Total amount debited from customers account") (lits "Amount in Word") "Transferred Amount ".toList _ (by decide),
      extractCore_skip_safe (lits "Total amount debited from customers account") (lits "Amount in Word") (by decide) v7b _ h7b.2,
      scanFail_skip (lits "Total amount debited from customers account") (lits "Amount in Word") " ".toList _ (by decide)]
    exact extractCore_label_value (lits "Total amount debited from customers account") (lits "Amount in Word") (by decide) "Total amount debited from customers account ".toList (by decide)
      v8 h8.2 h8.1 _
      (wsThen_sep_label (lits "Amount in Word") "Amount in Word".toList [] [] (by decide))
  unfold extract
  rw [hcore]
  simp [jsTrim_safe v8 h8.2]

/-- C4: on every flattened CBE text that carries the eight labels in the
documented order with well-formed values between each label and the next
anchor (well-formedness being formalised by `SafeVal`, with four digits
after the asterisks of the masked account), the anchor-pair extractor
populates every one of the eight output fields: the seven textual fields
carry exactly their values with `totalAmount` suffixed by " ETB", and
`receiverAccount` carries the fixed account literal, because the masked
pattern abuts the date label so its capture is empty and the `||`
fallback replaces it. -/
theorem claim_C4 (v1 v2 v3 : Str) (d1 d2 d3 d4 : Char) (v5 v6 v7 v7b v8 : Str)
    (h1 : SafeVal v1) (h2 : SafeVal v2) (h3 : SafeVal v3)
    (hd1 : jsDigit d1 = true) (hd2 : jsDigit d2 = true)
    (hd3 : jsDigit d3 = true) (hd4 : jsDigit d4 = true)
    (h5 : SafeVal v5) (h6 : SafeVal v6) (h7 : SafeVal v7) (h7b : SafeVal v7b)
    (h8 : SafeVal v8) :
    parseFTData (cbeText v1 v2 v3 [d1, d2, d3, d4] v5 v6 v7 v7b v8) =
      [("payer", some v1),
       ("payerAccount", some v2),
       ("receiver", some v3),
       ("receiverAccount", some "1000009338067".toList),
       ("paymentDateTime", some v5),
       ("referenceNo", some v6),
       ("reason", some v7),
       ("totalAmount", some (v8 ++ " ETB".toList))] := by
  have e1 := cbe_e_payer v1 v2 v3 d1 d2 d3 d4 v5 v6 v7 v7b v8 h1
  have e2 := cbe_e_payerAccount v1 v2 v3 d1 d2 d3 d4 v5 v6 v7 v7b v8 h1 h2
  have e3 := cbe_e_receiver v1 v2 v3 d1 d2 d3 d4 v5 v6 v7 v7b v8 h1 h2 h3
  have e4 := cbe_e_receiverAccount v1 v2 v3 d1 d2 d3 d4 v5 v6 v7 v7b v8 h1 h2 h3
    hd1 hd2 hd3 hd4
  have e5 := cbe_e_dateTime v1 v2 v3 d1 d2 d3 d4 v5 v6 v7 v7b v8 h1 h2 h3
    hd1 hd2 hd3 hd4 h5
  have e6 := cbe_e_reference v1 v2 v3 d1 d2 d3 d4 v5 v6 v7 v7b v8 h1 h2 h3
    hd1 hd2 hd3 hd4 h5 h6
  have e7 := cbe_e_reason v1 v2 v3 d1 d2 d3 d4 v5 v6 v7 v7b v8 h1 h2 h3
    hd1 hd2 hd3 hd4 h5 h6 h7
  have e8 := cbe_e_totalAmount v1 v2 v3 d1 d2 d3 d4 v5 v6 v7 v7b v8 h1 h2 h3
    hd1 hd2 hd3 hd4 h5 h6 h7 h7b h8
  simp only [parseFTData, e1, e2, e3, e4, e5, e6, e7, e8]
  simp [jsOrOpt, etbSuffix, h2.1, h8.1]

theorem claim_C4_witness :
    parseFTData (cbeText "0-1".toList "1000123".toList "2.4".toList
        ['9', '0', '3', '8'] "12:30".toList "123".toList "5".toList "99".toList
        "250".toList) =
      [("payer", some "0-1".toList),
       ("payerAccount", some "1000123".toList),
       ("receiver", some "2.4".toList),
       ("receiverAccount", some "1000009338067".toList),
       ("paymentDateTime", some "12:30".toList),
       ("referenceNo", some "123".toList),
       ("reason", some "5".toList),
       ("totalAmount", some ("250".toList ++ " ETB".toList))] :=
  claim_C4 "0-1".toList "1000123".toList "2.4".toList '9' '0' '3' '8'
    "12:30".toList "123".toList "5".toList "99".toList "250".toList
    (by decide) (by decide) (by decide) (by decide) (by decide) (by decide) (by decide)
    (by decide) (by decide) (by decide) (by decide) (by decide)

end BankReceipt
